import Mathlib

/-!
Shallow embedding of the cluster-autoscaler node-drain decision core:
the drainability rule chain (`drainabilityStatus`), the PDB rule
(`PdbRule.Drainable`), and the drain evaluator (`GetPodsToMove`),
translated from `simulator` (src/unnamed/part_000) and
`simulator/drainability/pdb.go`.

External collaborators (the Kubernetes API types, the label-selector
library, and the legacy eligibility function
`drain.GetPodsForDeletionOnNodeDrain`) are modelled at their interface
surface: selectors carry an explicit parse-failure flag, the legacy
function is an explicit function parameter, error values are `Option
String`, and Go nil-able references are `Option`.
-/

namespace Autoscaler

/-- Drainability outcome, from `drainability` package: `UndefinedOutcome`
(no rule decided), `DrainOk`, `BlockDrain`. -/
inductive Outcome where
  | UndefinedOutcome
  | DrainOk
  | BlockDrain
deriving DecidableEq, Repr

/-- Reason codes from `drain.BlockingPodReason` (external `utils/drain`
package; only the constants this core produces or that appear in the
claims are modelled, plus the zero value `NoReason`). -/
inductive BlockingPodReason where
  | NoReason
  | NotReplicated
  | UnmovableKubeSystemPod
  | NotEnoughPdb
  | UnexpectedError
deriving DecidableEq, Repr

/-- `drainability.Status`: the outcome plus, for `BlockDrain`, a reason
code and an error cause. Go's nil-able `error` is `Option String`. -/
structure Status where
  Outcome : Outcome
  BlockingReason : BlockingPodReason
  Error : Option String
deriving DecidableEq, Repr

/-- `drainability.NewUndefinedStatus()`: a `Status` with outcome
`UndefinedOutcome` and zero-valued remaining fields. -/
def NewUndefinedStatus : Status :=
  ⟨Outcome.UndefinedOutcome, BlockingPodReason.NoReason, none⟩

/-- `drainability.NewBlockedStatus(reason, err)`: a blocked `Status`
carrying the reason and a (non-nil) error cause. -/
def NewBlockedStatus (reason : BlockingPodReason) (e : String) : Status :=
  ⟨Outcome.BlockDrain, reason, some e⟩

/-- An owner reference of a pod (`metav1.OwnerReference`): the owning
object's kind and whether it is the managing controller. -/
structure OwnerReference where
  Kind : String
  Controller : Bool
deriving DecidableEq, Repr

/-- `apiv1.Pod`, restricted to the fields this core reads: identity
(namespace, name), labels, and owner references. -/
structure Pod where
  Namespace : String
  Name : String
  Labels : List (String × String)
  OwnerReferences : List OwnerReference
deriving DecidableEq, Repr

/-- `metav1.GetControllerOf`: the first owner reference marked as the
managing controller, if any. -/
def GetControllerOf (p : Pod) : Option OwnerReference :=
  p.OwnerReferences.find? (fun r => r.Controller)

/-- Modelled from the spec: `pod_util.IsDaemonSetPod` is repository code
not under src/. Per the spec's glossary a daemon-managed pod is "owned
by a per-node daemon controller", so the check is: the pod's managing
controller reference exists and has kind `DaemonSet`. -/
def IsDaemonSetPod (p : Pod) : Bool :=
  match GetControllerOf p with
  | some r => r.Kind == "DaemonSet"
  | none => false

/-- `metav1.LabelSelector` at the interface surface this core uses: a
set of required label key/value pairs, plus an explicit flag recording
whether `metav1.LabelSelectorAsSelector` fails on it (the library's
parse failure, e.g. a malformed match expression, is opaque to this
core). -/
structure LabelSelector where
  malformed : Bool
  matchLabels : List (String × String)
deriving DecidableEq, Repr

/-- `metav1.LabelSelectorAsSelector`: converts a `LabelSelector` to a
matchable selector, failing exactly on malformed selectors. -/
def LabelSelectorAsSelector (s : LabelSelector) :
    Except String (List (String × String)) :=
  if s.malformed then Except.error "invalid label selector"
  else Except.ok s.matchLabels

/-- `selector.Matches(labels.Set(pod.Labels))`: every required key/value
pair of the parsed selector is present in the pod's label set. -/
def selectorMatches (sel : List (String × String))
    (lbls : List (String × String)) : Bool :=
  sel.all (fun kv => lbls.lookup kv.1 == some kv.2)

/-- `policyv1.PodDisruptionBudget`, restricted to the fields this core
reads: `Namespace`, `Spec.Selector`, and `Status.DisruptionsAllowed`
(an `int32`, modelled as `Int`). -/
structure PodDisruptionBudget where
  Namespace : String
  Selector : LabelSelector
  DisruptionsAllowed : Int
deriving DecidableEq, Repr

/-- `pdb.RemainingPdbTracker` at the interface surface this core uses:
`GetPdbs()` returns the point-in-time snapshot of disruption budgets. -/
structure RemainingPdbTracker where
  pdbs : List PodDisruptionBudget
deriving DecidableEq, Repr

/-- `RemainingPdbTracker.GetPdbs()`. -/
def RemainingPdbTracker.GetPdbs (t : RemainingPdbTracker) :
    List PodDisruptionBudget :=
  t.pdbs

/-- `drainability.Rule`: a single-method interface
`Drainable(pod) → Status`, embedded as a function type. -/
def Rule : Type := Pod → Status

/-- `drainability.PdbRule` (pdb.go): holds a nil-able
`RemainingPdbTracker`. -/
structure PdbRule where
  tracker : Option RemainingPdbTracker

/-- The budget-iteration loop of `PdbRule.Drainable` (pdb.go lines
47-57): for each budget in snapshot order, parse its selector (parse
failure returns `Block`/`UnexpectedError` immediately); a budget whose
namespace and selector cover the pod and whose remaining-disruption
count is below 1 returns `Block`/`NotEnoughPdb` naming the pod; if no
budget triggers, return an undefined status. -/
def pdbLoop (pod : Pod) : List PodDisruptionBudget → Status
  | [] => NewUndefinedStatus
  | pdb :: rest =>
    match LabelSelectorAsSelector pdb.Selector with
    | Except.error _ =>
      NewBlockedStatus BlockingPodReason.UnexpectedError
        "failed to convert label selector"
    | Except.ok selector =>
      if pod.Namespace == pdb.Namespace
          && selectorMatches selector pod.Labels
          && decide (pdb.DisruptionsAllowed < 1) then
        NewBlockedStatus BlockingPodReason.NotEnoughPdb
          ("not enough pod disruption budget to move "
            ++ pod.Namespace ++ "/" ++ pod.Name)
      else
        pdbLoop pod rest

/-- `PdbRule.Drainable` (pdb.go lines 40-58): with no tracker
configured, return an undefined status; otherwise run the budget loop
over the tracker's snapshot. -/
def PdbRule.Drainable (r : PdbRule) (pod : Pod) : Status :=
  match r.tracker with
  | none => NewUndefinedStatus
  | some t => pdbLoop pod t.GetPdbs

/-- Coverage, as the spec defines it: the budget's namespace equals the
pod's namespace and the budget's (parseable) selector matches the pod's
labels. A budget whose selector fails to parse covers nothing. -/
def covers (pdb : PodDisruptionBudget) (pod : Pod) : Bool :=
  pod.Namespace == pdb.Namespace
    && (match LabelSelectorAsSelector pdb.Selector with
        | Except.ok selector => selectorMatches selector pod.Labels
        | Except.error _ => false)

/-- `drain.BlockingPod`: the pod that blocked the node, with a reason. -/
structure BlockingPod where
  Pod : Pod
  Reason : BlockingPodReason
deriving DecidableEq, Repr

/-- `NodeDeleteOptions` (part_000 lines 34-47). `DrainabilityRules` is a
nil-able Go slice, so `Option (List Rule)`. -/
structure NodeDeleteOptions where
  SkipNodesWithSystemPods : Bool
  SkipNodesWithLocalStorage : Bool
  SkipNodesWithCustomControllerPods : Bool
  MinReplicaCount : Int
  DrainabilityRules : Option (List Rule)

/-- `schedulerframework.PodInfo`, restricted to the `Pod` field read by
the evaluator. -/
structure PodInfo where
  Pod : Pod
deriving DecidableEq, Repr

/-- `schedulerframework.NodeInfo`, restricted to the `Pods` field read
by the evaluator. -/
structure NodeInfo where
  Pods : List PodInfo
deriving DecidableEq, Repr

/-- `kube_util.ListerRegistry`: an opaque external collaborator, only
threaded through to the legacy eligibility function. -/
structure ListerRegistry where
deriving DecidableEq, Repr

/-- `drainabilityStatus` (part_000 lines 129-138): evaluate rules in
list order and return the first status whose outcome is not
`UndefinedOutcome`; if every rule defers, return a zero-valued
undefined status. -/
def drainabilityStatus (pod : Pod) : List Rule → Status
  | [] => ⟨Outcome.UndefinedOutcome, BlockingPodReason.NoReason, none⟩
  | f :: rest =>
    let d := f pod
    if d.Outcome ≠ Outcome.UndefinedOutcome then d
    else drainabilityStatus pod rest

/-- Modelled from the spec: `drainability.DefaultRules(tracker)` is
repository code not under src/. Spec §4.3 step 1 says the evaluator
constructs "a default chain against the supplied Ledger" when
`deleteOptions` carries none, and §1-§2 place only the PDB rule in
scope (the mirror-pod rule is an external collaborator). The default
chain is therefore the PDB rule built over the supplied tracker. -/
def DefaultRules (tracker : Option RemainingPdbTracker) : List Rule :=
  [(PdbRule.mk tracker).Drainable]

/-- The rule chain `GetPodsToMove` actually evaluates (part_000 lines
70-81): the one carried in `deleteOptions` when present (non-nil), else
the default chain over the supplied tracker. -/
def effectiveRules (deleteOptions : NodeDeleteOptions)
    (remainingPdbTracker : Option RemainingPdbTracker) : List Rule :=
  match deleteOptions.DrainabilityRules with
  | some rs => rs
  | none => DefaultRules remainingPdbTracker

/-- Go's `int32(n)` conversion from `int`: wrap into `[-2^31, 2^31)`. -/
def int32ofInt (n : Int) : Int :=
  (n + 2 ^ 31) % 2 ^ 32 - 2 ^ 31

/-- The interface contract of the external legacy eligibility function
`drain.GetPodsForDeletionOnNodeDrain` (spec §6): given the pending
pods, the budget snapshot, the three skip flags, the nil-able listers,
the (int32) minimum replica count and the timestamp, it returns
movable pods, daemon pods, a nil-able blocking pod and a nil-able
error. `GetPodsToMove` takes it as an explicit parameter. -/
def LegacyDrainFn : Type :=
  List Pod → List PodDisruptionBudget → Bool → Bool → Bool →
    Option ListerRegistry → Int → Nat →
    List Pod × List Pod × Option BlockingPod × Option String

/-- The four named results of `GetPodsToMove`. -/
structure GetPodsToMoveResult where
  pods : List Pod
  daemonSetPods : List Pod
  blockingPod : Option BlockingPod
  err : Option String
deriving DecidableEq, Repr

/-- The budget snapshot `GetPodsToMove` hands to the legacy path
(part_000 lines 107-110): the tracker's snapshot when the tracker is
non-nil, else the nil slice. -/
def trackerPdbs : Option RemainingPdbTracker → List PodDisruptionBudget
  | some t => t.GetPdbs
  | none => []

/-- The per-pod loop of `GetPodsToMove` (part_000 lines 81-105), with
the three accumulators made explicit: `pending` is the named return
`pods` (undefined-outcome pods deferred to the legacy path), `drainPods`
and `drainDS` the locals for chain-classified movable and daemon pods.
On `BlockDrain` the Go code's naked return yields the pending list so
far, a nil daemon list, the blocking pod and the status's error; this
is the `Sum.inr` branch. -/
def podLoop (rules : List Rule) :
    List PodInfo → List Pod → List Pod → List Pod →
      (List Pod × List Pod × List Pod) ⊕
        (List Pod × BlockingPod × Option String)
  | [], pending, drainPods, drainDS =>
    Sum.inl (pending, drainPods, drainDS)
  | podInfo :: rest, pending, drainPods, drainDS =>
    let pod := podInfo.Pod
    let d := drainabilityStatus pod rules
    match d.Outcome with
    | Outcome.UndefinedOutcome =>
      podLoop rules rest (pending ++ [pod]) drainPods drainDS
    | Outcome.DrainOk =>
      if IsDaemonSetPod pod then
        podLoop rules rest pending drainPods (drainDS ++ [pod])
      else
        podLoop rules rest pending (drainPods ++ [pod]) drainDS
    | Outcome.BlockDrain =>
      Sum.inr (pending, ⟨pod, d.BlockingReason⟩, d.Error)

/-- `GetPodsToMove` (part_000 lines 67-127). The external legacy
eligibility function is the explicit last parameter `legacy`. After the
per-pod loop: a chain block returns the pending pods, nil daemon list,
the blocking pod and the status's error; otherwise the legacy function
runs on the pending pods with the tracker's budget snapshot (empty when
the tracker is nil), the chain-classified pods are appended to its
lists, and the legacy blocking pod and error are returned when the
error is non-nil, else nil/nil. -/
def GetPodsToMove (nodeInfo : NodeInfo) (deleteOptions : NodeDeleteOptions)
    (listers : Option ListerRegistry)
    (remainingPdbTracker : Option RemainingPdbTracker)
    (timestamp : Nat) (legacy : LegacyDrainFn) : GetPodsToMoveResult :=
  let drainabilityRules := effectiveRules deleteOptions remainingPdbTracker
  match podLoop drainabilityRules nodeInfo.Pods [] [] [] with
  | Sum.inr (pending, bp, e) => ⟨pending, [], some bp, e⟩
  | Sum.inl (pending, drainPods, drainDS) =>
    let pdbs := trackerPdbs remainingPdbTracker
    match legacy pending pdbs deleteOptions.SkipNodesWithSystemPods
        deleteOptions.SkipNodesWithLocalStorage
        deleteOptions.SkipNodesWithCustomControllerPods
        listers (int32ofInt deleteOptions.MinReplicaCount) timestamp with
    | (lp, ld, bp, e) =>
      let pods := lp ++ drainPods
      let daemonSetPods := ld ++ drainDS
      match e with
      | some msg => ⟨pods, daemonSetPods, bp, some msg⟩
      | none => ⟨pods, daemonSetPods, none, none⟩

/-- The pods of `infos` the rule chain leaves undecided (outcome
`UndefinedOutcome`), in input order: the pods the loop defers to the
legacy path. -/
def chainUndefined (rules : List Rule) (infos : List PodInfo) : List Pod :=
  (infos.filter (fun podInfo =>
    (drainabilityStatus podInfo.Pod rules).Outcome
      == Outcome.UndefinedOutcome)).map PodInfo.Pod

/-- The non-daemon pods of `infos` the rule chain classifies `DrainOk`,
in input order: the loop's `drainPods` accumulator. -/
def chainDrainPods (rules : List Rule) (infos : List PodInfo) : List Pod :=
  (infos.filter (fun podInfo =>
    (drainabilityStatus podInfo.Pod rules).Outcome == Outcome.DrainOk
      && !IsDaemonSetPod podInfo.Pod)).map PodInfo.Pod

/-- The daemon-managed pods of `infos` the rule chain classifies
`DrainOk`, in input order: the loop's `drainDS` accumulator. -/
def chainDrainDS (rules : List Rule) (infos : List PodInfo) : List Pod :=
  (infos.filter (fun podInfo =>
    (drainabilityStatus podInfo.Pod rules).Outcome == Outcome.DrainOk
      && IsDaemonSetPod podInfo.Pod)).map PodInfo.Pod

/-- No pod of `infos` makes the rule chain return `BlockDrain`. -/
def noChainBlock (rules : List Rule) (infos : List PodInfo) : Prop :=
  ∀ podInfo ∈ infos,
    (drainabilityStatus podInfo.Pod rules).Outcome ≠ Outcome.BlockDrain

/-- The budget snapshot a `PdbRule` iterates: its tracker's snapshot,
or the empty list when no tracker is configured. -/
def pdbsOf (r : PdbRule) : List PodDisruptionBudget :=
  match r.tracker with
  | none => []
  | some t => t.GetPdbs

/-- A concrete pod for counterexamples and witnesses: namespace
`default`, name `web-1`, one label, no owner references. -/
def cPod : Pod := ⟨"default", "web-1", [("app", "web")], []⟩

/-- A budget whose label selector fails to parse. -/
def cMalformedPdb : PodDisruptionBudget := ⟨"default", ⟨true, []⟩, 5⟩

/-- A budget covering `cPod` with no remaining disruptions. -/
def cExhaustedPdb : PodDisruptionBudget :=
  ⟨"default", ⟨false, [("app", "web")]⟩, 0⟩

/-- A budget covering `cPod` with remaining disruptions. -/
def wHealthyPdb : PodDisruptionBudget :=
  ⟨"default", ⟨false, [("app", "web")]⟩, 3⟩

/-- A snapshot listing the malformed budget before the exhausted
covering one. -/
def cTrackerMalformedFirst : RemainingPdbTracker :=
  ⟨[cMalformedPdb, cExhaustedPdb]⟩

/-- A snapshot listing the exhausted covering budget before the
malformed one. -/
def cTrackerExhaustedFirst : RemainingPdbTracker :=
  ⟨[cExhaustedPdb, cMalformedPdb]⟩

/-- A snapshot holding only the malformed budget, which covers no pod. -/
def cTrackerMalformedOnly : RemainingPdbTracker := ⟨[cMalformedPdb]⟩

/-- A snapshot holding only the exhausted covering budget. -/
def wTrackerExhausted : RemainingPdbTracker := ⟨[cExhaustedPdb]⟩

/-- A snapshot holding only the healthy covering budget. -/
def wTrackerHealthy : RemainingPdbTracker := ⟨[wHealthyPdb]⟩

/-- A concrete unlabelled pod named `app-a`. -/
def cPodA : Pod := ⟨"default", "app-a", [], []⟩

/-- A concrete unlabelled pod named `app-b`. -/
def cPodB : Pod := ⟨"default", "app-b", [], []⟩

/-- A rule that classifies `cPodA` as `DrainOk` and defers every other
pod. -/
def cDrainOkRule : Rule := fun p =>
  if p.Name == "app-a" then
    ⟨Outcome.DrainOk, BlockingPodReason.NoReason, none⟩
  else NewUndefinedStatus

/-- A rule that blocks every pod, with a reason and a cause. -/
def wBlockRule : Rule := fun p =>
  NewBlockedStatus BlockingPodReason.NotEnoughPdb ("blocked " ++ p.Name)

/-- A legacy eligibility function that always succeeds, echoing the
pending pods back as movable. -/
def wLegacyOk : LegacyDrainFn := fun pending _ _ _ _ _ _ _ =>
  (pending, [], none, none)

/-- A legacy eligibility function that always fails, blaming `cPodB`. -/
def cLegacyErr : LegacyDrainFn := fun _ _ _ _ _ _ _ _ =>
  ([], [], some ⟨cPodB, BlockingPodReason.NotReplicated⟩,
    some "pod is unreplicated")

/-- A node holding `cPodA` then `cPodB`. -/
def cNodeAB : NodeInfo := ⟨[⟨cPodA⟩, ⟨cPodB⟩]⟩

/-- Delete options whose rule chain is just `cDrainOkRule`. -/
def cOptsDrainOk : NodeDeleteOptions :=
  ⟨false, false, false, 0, some [cDrainOkRule]⟩

/-- Delete options whose rule chain is just `wBlockRule`. -/
def wOptsBlock : NodeDeleteOptions :=
  ⟨false, false, false, 0, some [wBlockRule]⟩

theorem covers_iff (pdb : PodDisruptionBudget) (pod : Pod) :
    covers pdb pod = true ↔
      pdb.Selector.malformed = false ∧
      (pod.Namespace == pdb.Namespace) = true ∧
      selectorMatches pdb.Selector.matchLabels pod.Labels = true := by
  cases hm : pdb.Selector.malformed <;>
    simp [covers, LabelSelectorAsSelector, hm]

theorem drainabilityStatus_mem (pod : Pod) (R : List Rule)
    (h : (drainabilityStatus pod R).Outcome ≠ Outcome.UndefinedOutcome) :
    ∃ r ∈ R, drainabilityStatus pod R = r pod := by
  induction R with
  | nil => simp [drainabilityStatus] at h
  | cons f rest ih =>
    by_cases hf : (f pod).Outcome = Outcome.UndefinedOutcome
    · rw [show drainabilityStatus pod (f :: rest) =
          drainabilityStatus pod rest by simp [drainabilityStatus, hf]] at h ⊢
      obtain ⟨r, hr, heq⟩ := ih h
      exact ⟨r, List.mem_cons_of_mem f hr, heq⟩
    · refine ⟨f, List.mem_cons_self f rest, ?_⟩
      simp [drainabilityStatus, hf]

theorem drainabilityStatus_undefined (pod : Pod) (R : List Rule)
    (h : ∀ r ∈ R, (r pod).Outcome = Outcome.UndefinedOutcome) :
    drainabilityStatus pod R =
      ⟨Outcome.UndefinedOutcome, BlockingPodReason.NoReason, none⟩ := by
  induction R with
  | nil => simp [drainabilityStatus]
  | cons f rest ih =>
    have hf := h f (List.mem_cons_self f rest)
    rw [show drainabilityStatus pod (f :: rest) =
        drainabilityStatus pod rest by simp [drainabilityStatus, hf]]
    exact ih (fun r hr => h r (List.mem_cons_of_mem f hr))

theorem pdbLoop_notEnough (pod : Pod) (pre : List PodDisruptionBudget)
    (b : PodDisruptionBudget) (post : List PodDisruptionBudget)
    (hpre : ∀ b' ∈ pre, b'.Selector.malformed = false)
    (hcov : covers b pod = true) (hex : b.DisruptionsAllowed < 1) :
    pdbLoop pod (pre ++ b :: post) =
      NewBlockedStatus BlockingPodReason.NotEnoughPdb
        ("not enough pod disruption budget to move "
          ++ pod.Namespace ++ "/" ++ pod.Name) := by
  obtain ⟨hmf, hns, hmatch⟩ := (covers_iff b pod).mp hcov
  induction pre with
  | nil =>
    simp only [List.nil_append]
    simp [pdbLoop, LabelSelectorAsSelector, hmf, hns, hmatch, hex]
  | cons b' pre' ih =>
    have hmf' : b'.Selector.malformed = false :=
      hpre b' (List.mem_cons_self b' pre')
    simp only [List.cons_append]
    by_cases hc : (pod.Namespace == b'.Namespace
        && selectorMatches b'.Selector.matchLabels pod.Labels
        && decide (b'.DisruptionsAllowed < 1)) = true
    · simp [pdbLoop, LabelSelectorAsSelector, hmf', hc]
    · rw [show pdbLoop pod (b' :: (pre' ++ b :: post)) =
          pdbLoop pod (pre' ++ b :: post) by
        simp only [pdbLoop, LabelSelectorAsSelector, hmf', if_false]
        simp
        intro h1 h2 h3
        exact absurd (by simp [h1, h2, h3]) hc]
      exact ih (fun q hq => hpre q (List.mem_cons_of_mem b' hq))

theorem pdbLoop_malformed (pod : Pod) (pre : List PodDisruptionBudget)
    (m : PodDisruptionBudget) (post : List PodDisruptionBudget)
    (hm : m.Selector.malformed = true)
    (hpre : ∀ b' ∈ pre,
      ¬(covers b' pod = true ∧ b'.DisruptionsAllowed < 1)) :
    pdbLoop pod (pre ++ m :: post) =
      NewBlockedStatus BlockingPodReason.UnexpectedError
        "failed to convert label selector" := by
  induction pre with
  | nil =>
    simp only [List.nil_append]
    simp [pdbLoop, LabelSelectorAsSelector, hm]
  | cons b' pre' ih =>
    simp only [List.cons_append]
    cases hm' : b'.Selector.malformed with
    | true => simp [pdbLoop, LabelSelectorAsSelector, hm']
    | false =>
      have hnc : ¬(pod.Namespace == b'.Namespace
          && selectorMatches b'.Selector.matchLabels pod.Labels
          && decide (b'.DisruptionsAllowed < 1)) = true := by
        intro hc
        simp only [Bool.and_eq_true, decide_eq_true_eq] at hc
        exact hpre b' (List.mem_cons_self b' pre')
          ⟨(covers_iff b' pod).mpr ⟨hm', hc.1.1, hc.1.2⟩, hc.2⟩
      rw [show pdbLoop pod (b' :: (pre' ++ m :: post)) =
          pdbLoop pod (pre' ++ m :: post) by
        simp only [pdbLoop, LabelSelectorAsSelector, hm', if_false]
        simp
        intro h1 h2 h3
        exact absurd (by simp [h1, h2, h3]) hnc]
      exact ih (fun q hq => hpre q (List.mem_cons_of_mem b' hq))

theorem pdbLoop_undefined (pod : Pod) (pdbs : List PodDisruptionBudget)
    (h : ∀ b ∈ pdbs, b.Selector.malformed = false ∧
      (covers b pod = true → 1 ≤ b.DisruptionsAllowed)) :
    pdbLoop pod pdbs = NewUndefinedStatus := by
  induction pdbs with
  | nil => simp [pdbLoop]
  | cons b rest ih =>
    obtain ⟨hmf, hok⟩ := h b (List.mem_cons_self b rest)
    have hnc : ¬(pod.Namespace == b.Namespace
        && selectorMatches b.Selector.matchLabels pod.Labels
        && decide (b.DisruptionsAllowed < 1)) = true := by
      intro hc
      simp only [Bool.and_eq_true, decide_eq_true_eq] at hc
      have hcov : covers b pod = true :=
        (covers_iff b pod).mpr ⟨hmf, hc.1.1, hc.1.2⟩
      exact absurd (hok hcov) (by omega)
    rw [show pdbLoop pod (b :: rest) = pdbLoop pod rest by
      simp only [pdbLoop, LabelSelectorAsSelector, hmf, if_false]
      simp
      intro h1 h2 h3
      exact absurd (by simp [h1, h2, h3]) hnc]
    exact ih (fun q hq => h q (List.mem_cons_of_mem b hq))

theorem chainUndefined_status (rules : List Rule) (infos : List PodInfo)
    (p : Pod) (hp : p ∈ chainUndefined rules infos) :
    (drainabilityStatus p rules).Outcome = Outcome.UndefinedOutcome := by
  simp only [chainUndefined, List.mem_map, List.mem_filter] at hp
  obtain ⟨q, ⟨hqmem, hq⟩, rfl⟩ := hp
  simpa using hq

theorem podLoop_noBlock (rules : List Rule) (infos : List PodInfo)
    (h : noChainBlock rules infos) :
    ∀ pending drainPods drainDS,
      podLoop rules infos pending drainPods drainDS =
        Sum.inl (pending ++ chainUndefined rules infos,
          drainPods ++ chainDrainPods rules infos,
          drainDS ++ chainDrainDS rules infos) := by
  induction infos with
  | nil =>
    intro pending drainPods drainDS
    simp [podLoop, chainUndefined, chainDrainPods, chainDrainDS]
  | cons podInfo rest ih =>
    intro pending drainPods drainDS
    have hrest : noChainBlock rules rest :=
      fun q hq => h q (List.mem_cons_of_mem podInfo hq)
    cases hst : (drainabilityStatus podInfo.Pod rules).Outcome with
    | UndefinedOutcome =>
      rw [show podLoop rules (podInfo :: rest) pending drainPods drainDS =
          podLoop rules rest (pending ++ [podInfo.Pod]) drainPods drainDS by
        simp [podLoop, hst]]
      rw [ih hrest]
      simp [chainUndefined, chainDrainPods, chainDrainDS, hst]
    | DrainOk =>
      cases hds : IsDaemonSetPod podInfo.Pod with
      | true =>
        rw [show podLoop rules (podInfo :: rest) pending drainPods drainDS =
            podLoop rules rest pending drainPods (drainDS ++ [podInfo.Pod]) by
          simp [podLoop, hst, hds]]
        rw [ih hrest]
        simp [chainUndefined, chainDrainPods, chainDrainDS, hst, hds]
      | false =>
        rw [show podLoop rules (podInfo :: rest) pending drainPods drainDS =
            podLoop rules rest pending (drainPods ++ [podInfo.Pod]) drainDS by
          simp [podLoop, hst, hds]]
        rw [ih hrest]
        simp [chainUndefined, chainDrainPods, chainDrainDS, hst, hds]
    | BlockDrain =>
      exact absurd hst (h podInfo (List.mem_cons_self podInfo rest))

theorem podLoop_blocked (rules : List Rule) (pre : List PodInfo)
    (podInfo : PodInfo) (post : List PodInfo)
    (hpre : noChainBlock rules pre)
    (hblock : (drainabilityStatus podInfo.Pod rules).Outcome
      = Outcome.BlockDrain) :
    ∀ pending drainPods drainDS,
      podLoop rules (pre ++ podInfo :: post) pending drainPods drainDS =
        Sum.inr (pending ++ chainUndefined rules pre,
          ⟨podInfo.Pod,
            (drainabilityStatus podInfo.Pod rules).BlockingReason⟩,
          (drainabilityStatus podInfo.Pod rules).Error) := by
  induction pre with
  | nil =>
    intro pending drainPods drainDS
    simp [podLoop, hblock, chainUndefined]
  | cons q pre' ih =>
    intro pending drainPods drainDS
    have hq : (drainabilityStatus q.Pod rules).Outcome ≠ Outcome.BlockDrain :=
      hpre q (List.mem_cons_self q pre')
    have hpre' : noChainBlock rules pre' :=
      fun x hx => hpre x (List.mem_cons_of_mem q hx)
    simp only [List.cons_append]
    cases hst : (drainabilityStatus q.Pod rules).Outcome with
    | UndefinedOutcome =>
      rw [show podLoop rules (q :: (pre' ++ podInfo :: post))
            pending drainPods drainDS =
          podLoop rules (pre' ++ podInfo :: post)
            (pending ++ [q.Pod]) drainPods drainDS by
        simp [podLoop, hst]]
      rw [ih hpre']
      simp [chainUndefined, hst]
    | DrainOk =>
      cases hds : IsDaemonSetPod q.Pod with
      | true =>
        rw [show podLoop rules (q :: (pre' ++ podInfo :: post))
              pending drainPods drainDS =
            podLoop rules (pre' ++ podInfo :: post)
              pending drainPods (drainDS ++ [q.Pod]) by
          simp [podLoop, hst, hds]]
        rw [ih hpre']
        simp [chainUndefined, hst]
      | false =>
        rw [show podLoop rules (q :: (pre' ++ podInfo :: post))
              pending drainPods drainDS =
            podLoop rules (pre' ++ podInfo :: post)
              pending (drainPods ++ [q.Pod]) drainDS by
          simp [podLoop, hst, hds]]
        rw [ih hpre']
        simp [chainUndefined, hst]
    | BlockDrain => exact absurd hst hq

theorem podLoop_inr_mem (rules : List Rule) (infos : List PodInfo) :
    ∀ pending drainPods drainDS pend bp e,
      podLoop rules infos pending drainPods drainDS =
        Sum.inr (pend, bp, e) →
      ∃ podInfo ∈ infos, drainabilityStatus podInfo.Pod rules =
        ⟨Outcome.BlockDrain, bp.Reason, e⟩ ∧ bp.Pod = podInfo.Pod := by
  induction infos with
  | nil =>
    intro pending drainPods drainDS pend bp e hloop
    simp [podLoop] at hloop
  | cons podInfo rest ih =>
    intro pending drainPods drainDS pend bp e hloop
    cases hst : (drainabilityStatus podInfo.Pod rules).Outcome with
    | UndefinedOutcome =>
      rw [show podLoop rules (podInfo :: rest) pending drainPods drainDS =
          podLoop rules rest (pending ++ [podInfo.Pod]) drainPods drainDS by
        simp [podLoop, hst]] at hloop
      obtain ⟨x, hx, hs⟩ := ih _ _ _ _ _ _ hloop
      exact ⟨x, List.mem_cons_of_mem _ hx, hs⟩
    | DrainOk =>
      cases hds : IsDaemonSetPod podInfo.Pod with
      | true =>
        rw [show podLoop rules (podInfo :: rest) pending drainPods drainDS =
            podLoop rules rest pending drainPods
              (drainDS ++ [podInfo.Pod]) by
          simp [podLoop, hst, hds]] at hloop
        obtain ⟨x, hx, hs⟩ := ih _ _ _ _ _ _ hloop
        exact ⟨x, List.mem_cons_of_mem _ hx, hs⟩
      | false =>
        rw [show podLoop rules (podInfo :: rest) pending drainPods drainDS =
            podLoop rules rest pending
              (drainPods ++ [podInfo.Pod]) drainDS by
          simp [podLoop, hst, hds]] at hloop
        obtain ⟨x, hx, hs⟩ := ih _ _ _ _ _ _ hloop
        exact ⟨x, List.mem_cons_of_mem _ hx, hs⟩
    | BlockDrain =>
      rw [show podLoop rules (podInfo :: rest) pending drainPods drainDS =
          Sum.inr (pending,
            ⟨podInfo.Pod,
              (drainabilityStatus podInfo.Pod rules).BlockingReason⟩,
            (drainabilityStatus podInfo.Pod rules).Error) by
        simp [podLoop, hst]] at hloop
      simp only [Sum.inr.injEq, Prod.mk.injEq] at hloop
      obtain ⟨-, hbp, herr⟩ := hloop
      refine ⟨podInfo, List.mem_cons_self podInfo rest, ?_, ?_⟩
      · rw [← hbp, ← herr]
        rw [show drainabilityStatus podInfo.Pod rules =
            ⟨(drainabilityStatus podInfo.Pod rules).Outcome,
              (drainabilityStatus podInfo.Pod rules).BlockingReason,
              (drainabilityStatus podInfo.Pod rules).Error⟩ from rfl]
        rw [hst]
      · rw [← hbp]

theorem getPodsToMove_blocked_eq (deleteOptions : NodeDeleteOptions)
    (listers : Option ListerRegistry) (tracker : Option RemainingPdbTracker)
    (timestamp : Nat) (legacy : LegacyDrainFn)
    (pre post : List PodInfo) (podInfo : PodInfo)
    (hpre : noChainBlock (effectiveRules deleteOptions tracker) pre)
    (hblock :
      (drainabilityStatus podInfo.Pod
        (effectiveRules deleteOptions tracker)).Outcome
        = Outcome.BlockDrain) :
    GetPodsToMove ⟨pre ++ podInfo :: post⟩ deleteOptions listers tracker
        timestamp legacy =
      ⟨chainUndefined (effectiveRules deleteOptions tracker) pre, [],
        some ⟨podInfo.Pod,
          (drainabilityStatus podInfo.Pod
            (effectiveRules deleteOptions tracker)).BlockingReason⟩,
        (drainabilityStatus podInfo.Pod
          (effectiveRules deleteOptions tracker)).Error⟩ := by
  simp only [GetPodsToMove]
  rw [podLoop_blocked _ _ _ _ hpre hblock]
  simp

theorem getPodsToMove_legacy_some_eq (nodeInfo : NodeInfo)
    (deleteOptions : NodeDeleteOptions) (listers : Option ListerRegistry)
    (tracker : Option RemainingPdbTracker) (timestamp : Nat)
    (legacy : LegacyDrainFn) (lp ld : List Pod) (bp : Option BlockingPod)
    (msg : String)
    (hnb : noChainBlock (effectiveRules deleteOptions tracker) nodeInfo.Pods)
    (hleg : legacy
        (chainUndefined (effectiveRules deleteOptions tracker) nodeInfo.Pods)
        (trackerPdbs tracker) deleteOptions.SkipNodesWithSystemPods
        deleteOptions.SkipNodesWithLocalStorage
        deleteOptions.SkipNodesWithCustomControllerPods listers
        (int32ofInt deleteOptions.MinReplicaCount) timestamp
        = (lp, ld, bp, some msg)) :
    GetPodsToMove nodeInfo deleteOptions listers tracker timestamp legacy =
      ⟨lp ++ chainDrainPods (effectiveRules deleteOptions tracker)
          nodeInfo.Pods,
        ld ++ chainDrainDS (effectiveRules deleteOptions tracker)
          nodeInfo.Pods,
        bp, some msg⟩ := by
  simp only [GetPodsToMove]
  rw [podLoop_noBlock _ _ hnb]
  simp only [List.nil_append]
  rw [hleg]

theorem getPodsToMove_legacy_none_eq (nodeInfo : NodeInfo)
    (deleteOptions : NodeDeleteOptions) (listers : Option ListerRegistry)
    (tracker : Option RemainingPdbTracker) (timestamp : Nat)
    (legacy : LegacyDrainFn) (lp ld : List Pod) (bp : Option BlockingPod)
    (hnb : noChainBlock (effectiveRules deleteOptions tracker) nodeInfo.Pods)
    (hleg : legacy
        (chainUndefined (effectiveRules deleteOptions tracker) nodeInfo.Pods)
        (trackerPdbs tracker) deleteOptions.SkipNodesWithSystemPods
        deleteOptions.SkipNodesWithLocalStorage
        deleteOptions.SkipNodesWithCustomControllerPods listers
        (int32ofInt deleteOptions.MinReplicaCount) timestamp
        = (lp, ld, bp, none)) :
    GetPodsToMove nodeInfo deleteOptions listers tracker timestamp legacy =
      ⟨lp ++ chainDrainPods (effectiveRules deleteOptions tracker)
          nodeInfo.Pods,
        ld ++ chainDrainDS (effectiveRules deleteOptions tracker)
          nodeInfo.Pods,
        none, none⟩ := by
  simp only [GetPodsToMove]
  rw [podLoop_noBlock _ _ hnb]
  simp only [List.nil_append]
  rw [hleg]

/-- C2: When the rule chain blocks at a pod, `GetPodsToMove` returns as
movable exactly the earlier pods the chain left undecided, an empty
daemon list, and omits every pod the chain classified `DrainOk` before
the block from both output lists. -/
theorem claim_C2_block_returns_only_pending (deleteOptions : NodeDeleteOptions)
    (listers : Option ListerRegistry) (tracker : Option RemainingPdbTracker)
    (timestamp : Nat) (legacy : LegacyDrainFn)
    (pre post : List PodInfo) (podInfo : PodInfo)
    (hpre : noChainBlock (effectiveRules deleteOptions tracker) pre)
    (hblock :
      (drainabilityStatus podInfo.Pod
        (effectiveRules deleteOptions tracker)).Outcome
        = Outcome.BlockDrain) :
    (GetPodsToMove ⟨pre ++ podInfo :: post⟩ deleteOptions listers tracker
        timestamp legacy).pods =
      chainUndefined (effectiveRules deleteOptions tracker) pre ∧
    (GetPodsToMove ⟨pre ++ podInfo :: post⟩ deleteOptions listers tracker
        timestamp legacy).daemonSetPods = [] ∧
    ∀ q ∈ pre,
      (drainabilityStatus q.Pod
        (effectiveRules deleteOptions tracker)).Outcome = Outcome.DrainOk →
      q.Pod ∉ (GetPodsToMove ⟨pre ++ podInfo :: post⟩ deleteOptions listers
        tracker timestamp legacy).pods ∧
      q.Pod ∉ (GetPodsToMove ⟨pre ++ podInfo :: post⟩ deleteOptions listers
        tracker timestamp legacy).daemonSetPods := by
  rw [getPodsToMove_blocked_eq deleteOptions listers tracker timestamp legacy
    pre post podInfo hpre hblock]
  refine ⟨rfl, rfl, ?_⟩
  intro q _ hok
  constructor
  · intro hmem
    have hund := chainUndefined_status _ _ _ hmem
    rw [hok] at hund
    exact Outcome.noConfusion hund
  · intro hmem
    simp at hmem

/-- C9: pods are evaluated in input order; when the chain returns
`BlockDrain` for a pod, the blocking pod is that pod with the status's
reason, the error is the status's cause, and the result does not depend
on the pods after it (no rule is evaluated on them). -/
theorem claim_C9_block_short_circuits (deleteOptions : NodeDeleteOptions)
    (listers : Option ListerRegistry) (tracker : Option RemainingPdbTracker)
    (timestamp : Nat) (legacy : LegacyDrainFn)
    (pre post : List PodInfo) (podInfo : PodInfo)
    (hpre : noChainBlock (effectiveRules deleteOptions tracker) pre)
    (hblock :
      (drainabilityStatus podInfo.Pod
        (effectiveRules deleteOptions tracker)).Outcome
        = Outcome.BlockDrain) :
    (GetPodsToMove ⟨pre ++ podInfo :: post⟩ deleteOptions listers tracker
        timestamp legacy).blockingPod =
      some ⟨podInfo.Pod,
        (drainabilityStatus podInfo.Pod
          (effectiveRules deleteOptions tracker)).BlockingReason⟩ ∧
    (GetPodsToMove ⟨pre ++ podInfo :: post⟩ deleteOptions listers tracker
        timestamp legacy).err =
      (drainabilityStatus podInfo.Pod
        (effectiveRules deleteOptions tracker)).Error ∧
    ∀ post' : List PodInfo,
      GetPodsToMove ⟨pre ++ podInfo :: post'⟩ deleteOptions listers tracker
        timestamp legacy =
      GetPodsToMove ⟨pre ++ podInfo :: post⟩ deleteOptions listers tracker
        timestamp legacy := by
  have h := fun rest => getPodsToMove_blocked_eq deleteOptions listers
    tracker timestamp legacy pre rest podInfo hpre hblock
  refine ⟨?_, ?_, ?_⟩
  · rw [h post]
  · rw [h post]
  · intro post'
    rw [h post', h post]

/-- C10: when no rule blocks any pod and the legacy path returns no
error, `GetPodsToMove` returns the legacy movable pods followed by the
chain-classified movable pods, the legacy daemon pods followed by the
chain-classified daemon pods, and nil blockingPod and err. -/
theorem claim_C10_merge_order (nodeInfo : NodeInfo)
    (deleteOptions : NodeDeleteOptions) (listers : Option ListerRegistry)
    (tracker : Option RemainingPdbTracker) (timestamp : Nat)
    (legacy : LegacyDrainFn) (lp ld : List Pod) (bp : Option BlockingPod)
    (hnb : noChainBlock (effectiveRules deleteOptions tracker) nodeInfo.Pods)
    (hleg : legacy
        (chainUndefined (effectiveRules deleteOptions tracker) nodeInfo.Pods)
        (trackerPdbs tracker) deleteOptions.SkipNodesWithSystemPods
        deleteOptions.SkipNodesWithLocalStorage
        deleteOptions.SkipNodesWithCustomControllerPods listers
        (int32ofInt deleteOptions.MinReplicaCount) timestamp
        = (lp, ld, bp, none)) :
    GetPodsToMove nodeInfo deleteOptions listers tracker timestamp legacy =
      ⟨lp ++ chainDrainPods (effectiveRules deleteOptions tracker)
          nodeInfo.Pods,
        ld ++ chainDrainDS (effectiveRules deleteOptions tracker)
          nodeInfo.Pods,
        none, none⟩ :=
  getPodsToMove_legacy_none_eq nodeInfo deleteOptions listers tracker
    timestamp legacy lp ld bp hnb hleg

/-- C3 as stated is false on the code: on a legacy-path error the
chain-classified movable and daemon pods ARE merged (appended) into the
returned lists before the error return. Here the chain classifies
`cPodA` as `DrainOk`, the legacy path fails, and the returned movable
list still contains `cPodA`. -/
theorem claim_C3_counterexample :
    (drainabilityStatus cPodA (effectiveRules cOptsDrainOk none)).Outcome
      = Outcome.DrainOk ∧
    (GetPodsToMove cNodeAB cOptsDrainOk none none 0 cLegacyErr).err
      = some "pod is unreplicated" ∧
    cPodA ∈ (GetPodsToMove cNodeAB cOptsDrainOk none none 0 cLegacyErr).pods
    := by
  refine ⟨by decide, by decide, by decide⟩

/-- C3 (amended): whenever the rule chain blocks no pod and the legacy
eligibility function returns a non-nil error, `GetPodsToMove` returns
the legacy blockingPod and error immediately (no further
classification), but the returned lists are the legacy lists with the
chain-classified movable and daemon pods appended. -/
theorem claim_C3_legacy_error_merges (nodeInfo : NodeInfo)
    (deleteOptions : NodeDeleteOptions) (listers : Option ListerRegistry)
    (tracker : Option RemainingPdbTracker) (timestamp : Nat)
    (legacy : LegacyDrainFn) (lp ld : List Pod) (bp : Option BlockingPod)
    (msg : String)
    (hnb : noChainBlock (effectiveRules deleteOptions tracker) nodeInfo.Pods)
    (hleg : legacy
        (chainUndefined (effectiveRules deleteOptions tracker) nodeInfo.Pods)
        (trackerPdbs tracker) deleteOptions.SkipNodesWithSystemPods
        deleteOptions.SkipNodesWithLocalStorage
        deleteOptions.SkipNodesWithCustomControllerPods listers
        (int32ofInt deleteOptions.MinReplicaCount) timestamp
        = (lp, ld, bp, some msg)) :
    GetPodsToMove nodeInfo deleteOptions listers tracker timestamp legacy =
      ⟨lp ++ chainDrainPods (effectiveRules deleteOptions tracker)
          nodeInfo.Pods,
        ld ++ chainDrainDS (effectiveRules deleteOptions tracker)
          nodeInfo.Pods,
        bp, some msg⟩ :=
  getPodsToMove_legacy_some_eq nodeInfo deleteOptions listers tracker
    timestamp legacy lp ld bp msg hnb hleg

/-- C1: provided every rule in the effective chain attaches a non-nil
error to a `BlockDrain` status and the legacy function pairs a non-nil
error with a non-nil blocking pod, `GetPodsToMove` returns exactly one
of a non-nil blockingPod with non-nil err, or nil blockingPod with nil
err; and on a chain block the returned movable list is exactly the
pending pods classified before the block and the daemon list is empty. -/
theorem claim_C1_exactly_one_shape (nodeInfo : NodeInfo)
    (deleteOptions : NodeDeleteOptions) (listers : Option ListerRegistry)
    (tracker : Option RemainingPdbTracker) (timestamp : Nat)
    (legacy : LegacyDrainFn)
    (hrules : ∀ r ∈ effectiveRules deleteOptions tracker, ∀ p : Pod,
      (r p).Outcome = Outcome.BlockDrain → (r p).Error.isSome = true)
    (hlegacy : ∀ pending pdbs s1 s2 s3 ls mrc ts,
      ((legacy pending pdbs s1 s2 s3 ls mrc ts).2.2.2).isSome = true →
      ((legacy pending pdbs s1 s2 s3 ls mrc ts).2.2.1).isSome = true) :
    (((GetPodsToMove nodeInfo deleteOptions listers tracker timestamp
          legacy).blockingPod.isSome = true ∧
      (GetPodsToMove nodeInfo deleteOptions listers tracker timestamp
          legacy).err.isSome = true) ∨
     ((GetPodsToMove nodeInfo deleteOptions listers tracker timestamp
          legacy).blockingPod = none ∧
      (GetPodsToMove nodeInfo deleteOptions listers tracker timestamp
          legacy).err = none)) ∧
    (∀ pend bp e,
      podLoop (effectiveRules deleteOptions tracker) nodeInfo.Pods [] [] []
        = Sum.inr (pend, bp, e) →
      (GetPodsToMove nodeInfo deleteOptions listers tracker timestamp
          legacy).pods = pend ∧
      (GetPodsToMove nodeInfo deleteOptions listers tracker timestamp
          legacy).daemonSetPods = []) := by
  rcases hloop : podLoop (effectiveRules deleteOptions tracker)
      nodeInfo.Pods [] [] [] with ⟨pend, drainPods, drainDS⟩ | ⟨pend, bp, e⟩
  · rcases hl : legacy pend (trackerPdbs tracker)
        deleteOptions.SkipNodesWithSystemPods
        deleteOptions.SkipNodesWithLocalStorage
        deleteOptions.SkipNodesWithCustomControllerPods listers
        (int32ofInt deleteOptions.MinReplicaCount) timestamp
      with ⟨lp, ld, lbp, le⟩
    cases le with
    | some msg =>
      have hres : GetPodsToMove nodeInfo deleteOptions listers tracker
          timestamp legacy = ⟨lp ++ drainPods, ld ++ drainDS, lbp, some msg⟩
          := by
        simp only [GetPodsToMove, hloop, hl]
      have hbs : lbp.isSome = true := by
        have := hlegacy pend (trackerPdbs tracker)
          deleteOptions.SkipNodesWithSystemPods
          deleteOptions.SkipNodesWithLocalStorage
          deleteOptions.SkipNodesWithCustomControllerPods listers
          (int32ofInt deleteOptions.MinReplicaCount) timestamp
        rw [hl] at this
        simpa using this (by simp)
      refine ⟨Or.inl ⟨?_, ?_⟩, ?_⟩
      · rw [hres]
        exact hbs
      · rw [hres]
        rfl
      · intro pend' bp' e' h'
        exact Sum.noConfusion h'
    | none =>
      have hres : GetPodsToMove nodeInfo deleteOptions listers tracker
          timestamp legacy = ⟨lp ++ drainPods, ld ++ drainDS, none, none⟩
          := by
        simp only [GetPodsToMove, hloop, hl]
      refine ⟨Or.inr ⟨by rw [hres], by rw [hres]⟩, ?_⟩
      intro pend' bp' e' h'
      exact Sum.noConfusion h'
  · have hres : GetPodsToMove nodeInfo deleteOptions listers tracker
        timestamp legacy = ⟨pend, [], some bp, e⟩ := by
      simp only [GetPodsToMove, hloop]
    obtain ⟨podInfo, _, hstat, _⟩ :=
      podLoop_inr_mem (effectiveRules deleteOptions tracker) nodeInfo.Pods
        _ _ _ _ _ _ hloop
    have hnotundef :
        (drainabilityStatus podInfo.Pod
          (effectiveRules deleteOptions tracker)).Outcome
          ≠ Outcome.UndefinedOutcome := by
      rw [hstat]
      exact fun h => Outcome.noConfusion h
    obtain ⟨r, hrmem, hreq⟩ :=
      drainabilityStatus_mem podInfo.Pod
        (effectiveRules deleteOptions tracker) hnotundef
    have hblockr : (r podInfo.Pod).Outcome = Outcome.BlockDrain := by
      rw [← hreq, hstat]
    have hesome : e.isSome = true := by
      have := hrules r hrmem podInfo.Pod hblockr
      rw [← hreq, hstat] at this
      exact this
    refine ⟨Or.inl ⟨?_, ?_⟩, ?_⟩
    · rw [hres]
      rfl
    · rw [hres]
      exact hesome
    · intro pend' bp' e' h'
      simp only [Sum.inr.injEq, Prod.mk.injEq] at h'
      rw [hres]
      exact ⟨h'.1, rfl⟩

/-- C4: for every pod p and ordered rule list R, the chain evaluation
returns the Status of the first rule in R whose outcome is not
Undefined, and returns an Undefined Status (the zero-valued one) when
every rule in R returns Undefined. -/
theorem claim_C4_chain_first_decisive (p : Pod) (R : List Rule) :
    ((∀ r ∈ R, (r p).Outcome = Outcome.UndefinedOutcome) ∧
      drainabilityStatus p R =
        ⟨Outcome.UndefinedOutcome, BlockingPodReason.NoReason, none⟩) ∨
    (∃ pre r post, R = pre ++ r :: post ∧
      (∀ r' ∈ pre, (r' p).Outcome = Outcome.UndefinedOutcome) ∧
      (r p).Outcome ≠ Outcome.UndefinedOutcome ∧
      drainabilityStatus p R = r p) := by
  induction R with
  | nil => exact Or.inl ⟨by simp, by simp [drainabilityStatus]⟩
  | cons f rest ih =>
    by_cases hf : (f p).Outcome = Outcome.UndefinedOutcome
    · have hstep : drainabilityStatus p (f :: rest) =
          drainabilityStatus p rest := by
        simp [drainabilityStatus, hf]
      rcases ih with ⟨hall, heq⟩ | ⟨pre, r, post, hR, hpre, hr, heq⟩
      · refine Or.inl ⟨?_, by rw [hstep]; exact heq⟩
        intro r hr
        rcases List.mem_cons.mp hr with rfl | hmem
        · exact hf
        · exact hall r hmem
      · refine Or.inr ⟨f :: pre, r, post, by rw [hR]; rfl, ?_, hr,
          by rw [hstep]; exact heq⟩
        intro r' hr'
        rcases List.mem_cons.mp hr' with rfl | hmem
        · exact hf
        · exact hpre r' hmem
    · exact Or.inr ⟨[], f, rest, rfl, by simp, hf,
        by simp [drainabilityStatus, hf]⟩

/-- C5 fails as stated: the exhausted budget `cExhaustedPdb` covers
`cPod` and has no remaining disruptions, yet because the earlier budget
in the snapshot has a malformed selector, `PdbRule.Drainable` returns
the `UnexpectedError` reason instead of `NotEnoughPdb`. -/
theorem claim_C5_counterexample :
    covers cExhaustedPdb cPod = true ∧
    cExhaustedPdb.DisruptionsAllowed < 1 ∧
    cExhaustedPdb ∈ cTrackerMalformedFirst.GetPdbs ∧
    ((PdbRule.mk (some cTrackerMalformedFirst)).Drainable cPod).BlockingReason
      ≠ BlockingPodReason.NotEnoughPdb := by
  refine ⟨by decide, by decide, by decide, by decide⟩

/-- C5 (amended): for every pod p and ledger snapshot, if some budget
covers p with a remaining-disruption count below 1 and no budget
earlier in the snapshot has a malformed selector, then
`PdbRule.Drainable(p)` returns Block with reason `NotEnoughPdb` and an
error naming the pod that lacks headroom. -/
theorem claim_C5_not_enough_pdb (pod : Pod) (t : RemainingPdbTracker)
    (pre post : List PodDisruptionBudget) (b : PodDisruptionBudget)
    (hsnap : t.GetPdbs = pre ++ b :: post)
    (hpre : ∀ b' ∈ pre, b'.Selector.malformed = false)
    (hcov : covers b pod = true)
    (hex : b.DisruptionsAllowed < 1) :
    (PdbRule.mk (some t)).Drainable pod =
      NewBlockedStatus BlockingPodReason.NotEnoughPdb
        ("not enough pod disruption budget to move "
          ++ pod.Namespace ++ "/" ++ pod.Name) := by
  show pdbLoop pod t.GetPdbs = _
  rw [hsnap]
  exact pdbLoop_notEnough pod pre b post hpre hcov hex

/-- C6 fails as stated: the snapshot contains a budget with a malformed
selector, yet because an earlier budget covers `cPod` with no remaining
disruptions, `PdbRule.Drainable` returns the `NotEnoughPdb` reason
instead of `UnexpectedError`. -/
theorem claim_C6_counterexample :
    cMalformedPdb.Selector.malformed = true ∧
    cMalformedPdb ∈ cTrackerExhaustedFirst.GetPdbs ∧
    ((PdbRule.mk (some cTrackerExhaustedFirst)).Drainable cPod).BlockingReason
      ≠ BlockingPodReason.UnexpectedError := by
  refine ⟨by decide, by decide, by decide⟩

/-- C6 (amended): for every pod p, if some budget in the ledger
snapshot has a label selector that fails to parse and no earlier budget
in the snapshot both covers p and has a remaining-disruption count
below 1, then `PdbRule.Drainable(p)` returns Block with reason
`UnexpectedError` and the parse failure as cause, even if a later
budget in the snapshot would have been benign. -/
theorem claim_C6_malformed_selector (pod : Pod) (t : RemainingPdbTracker)
    (pre post : List PodDisruptionBudget) (m : PodDisruptionBudget)
    (hsnap : t.GetPdbs = pre ++ m :: post)
    (hm : m.Selector.malformed = true)
    (hpre : ∀ b' ∈ pre,
      ¬(covers b' pod = true ∧ b'.DisruptionsAllowed < 1)) :
    (PdbRule.mk (some t)).Drainable pod =
      NewBlockedStatus BlockingPodReason.UnexpectedError
        "failed to convert label selector" := by
  show pdbLoop pod t.GetPdbs = _
  rw [hsnap]
  exact pdbLoop_malformed pod pre m post hm hpre

/-- C7 fails as stated: `cPod` is covered by zero budgets of the
snapshot, yet `PdbRule.Drainable` returns a Block status because the
snapshot's only budget has a malformed selector. -/
theorem claim_C7_counterexample :
    (cTrackerMalformedOnly.GetPdbs.all fun b => !covers b cPod) = true ∧
    ((PdbRule.mk (some cTrackerMalformedOnly)).Drainable cPod).Outcome
      = Outcome.BlockDrain := by
  refine ⟨by decide, by decide⟩

/-- C7 (amended): for every pod p covered by zero budgets of the
snapshot, or only by budgets with a remaining-disruption count of at
least 1, and with every budget's selector parseable,
`PdbRule.Drainable(p)` never returns a Block status. -/
theorem claim_C7_no_block (pod : Pod) (r : PdbRule)
    (hparse : ∀ b ∈ pdbsOf r, b.Selector.malformed = false)
    (hcov : ∀ b ∈ pdbsOf r, covers b pod = true → 1 ≤ b.DisruptionsAllowed) :
    (r.Drainable pod).Outcome ≠ Outcome.BlockDrain := by
  rcases r with ⟨tracker⟩
  cases tracker with
  | none =>
    intro h
    exact Outcome.noConfusion h
  | some t =>
    have hloop : pdbLoop pod t.GetPdbs = NewUndefinedStatus :=
      pdbLoop_undefined pod t.GetPdbs
        (fun b hb => ⟨hparse b hb, hcov b hb⟩)
    show (pdbLoop pod t.GetPdbs).Outcome ≠ Outcome.BlockDrain
    rw [hloop]
    intro h
    exact Outcome.noConfusion h

/-- C8: for every pod, a `PdbRule` with no tracker configured returns
an Undefined Status, deferring the decision to other rules or the
legacy path. -/
theorem claim_C8_nil_tracker_undefined (pod : Pod) :
    (PdbRule.mk none).Drainable pod = NewUndefinedStatus := rfl

/-- Witness for C1: a concrete node, an always-blocking rule chain and
a well-formed legacy function. -/
theorem claim_C1_witness :
    (∀ r ∈ effectiveRules wOptsBlock none, ∀ p : Pod,
      (r p).Outcome = Outcome.BlockDrain → (r p).Error.isSome = true) ∧
    (∀ pending pdbs s1 s2 s3 ls mrc ts,
      ((wLegacyOk pending pdbs s1 s2 s3 ls mrc ts).2.2.2).isSome = true →
      ((wLegacyOk pending pdbs s1 s2 s3 ls mrc ts).2.2.1).isSome = true) ∧
    ((((GetPodsToMove cNodeAB wOptsBlock none none 0
          wLegacyOk).blockingPod.isSome = true ∧
       (GetPodsToMove cNodeAB wOptsBlock none none 0
          wLegacyOk).err.isSome = true) ∨
      ((GetPodsToMove cNodeAB wOptsBlock none none 0
          wLegacyOk).blockingPod = none ∧
       (GetPodsToMove cNodeAB wOptsBlock none none 0
          wLegacyOk).err = none)) ∧
     (∀ pend bp e,
       podLoop (effectiveRules wOptsBlock none) cNodeAB.Pods [] [] []
         = Sum.inr (pend, bp, e) →
       (GetPodsToMove cNodeAB wOptsBlock none none 0
          wLegacyOk).pods = pend ∧
       (GetPodsToMove cNodeAB wOptsBlock none none 0
          wLegacyOk).daemonSetPods = [])) := by
  have h1 : ∀ r ∈ effectiveRules wOptsBlock none, ∀ p : Pod,
      (r p).Outcome = Outcome.BlockDrain → (r p).Error.isSome = true := by
    intro r hr p _
    rw [show effectiveRules wOptsBlock none = [wBlockRule] from rfl] at hr
    rw [List.mem_singleton.mp hr]
    rfl
  have h2 : ∀ pending pdbs s1 s2 s3 ls mrc ts,
      ((wLegacyOk pending pdbs s1 s2 s3 ls mrc ts).2.2.2).isSome = true →
      ((wLegacyOk pending pdbs s1 s2 s3 ls mrc ts).2.2.1).isSome = true := by
    intro pending pdbs s1 s2 s3 ls mrc ts h
    simp [wLegacyOk] at h
  exact ⟨h1, h2,
    claim_C1_exactly_one_shape cNodeAB wOptsBlock none none 0 wLegacyOk h1 h2⟩

/-- Witness for C2: the always-blocking rule chain blocks on the first
pod of the concrete node. -/
theorem claim_C2_witness :
    noChainBlock (effectiveRules wOptsBlock none) [] ∧
    (drainabilityStatus (PodInfo.mk cPodA).Pod
      (effectiveRules wOptsBlock none)).Outcome = Outcome.BlockDrain ∧
    ((GetPodsToMove ⟨[] ++ PodInfo.mk cPodA :: [PodInfo.mk cPodB]⟩
        wOptsBlock none none 0 wLegacyOk).pods =
      chainUndefined (effectiveRules wOptsBlock none) [] ∧
     (GetPodsToMove ⟨[] ++ PodInfo.mk cPodA :: [PodInfo.mk cPodB]⟩
        wOptsBlock none none 0 wLegacyOk).daemonSetPods = [] ∧
     ∀ q ∈ ([] : List PodInfo),
       (drainabilityStatus q.Pod
         (effectiveRules wOptsBlock none)).Outcome = Outcome.DrainOk →
       q.Pod ∉ (GetPodsToMove ⟨[] ++ PodInfo.mk cPodA :: [PodInfo.mk cPodB]⟩
         wOptsBlock none none 0 wLegacyOk).pods ∧
       q.Pod ∉ (GetPodsToMove ⟨[] ++ PodInfo.mk cPodA :: [PodInfo.mk cPodB]⟩
         wOptsBlock none none 0 wLegacyOk).daemonSetPods) := by
  have hpre : noChainBlock (effectiveRules wOptsBlock none) [] := by
    intro q hq
    exact absurd hq (List.not_mem_nil q)
  have hblock : (drainabilityStatus (PodInfo.mk cPodA).Pod
      (effectiveRules wOptsBlock none)).Outcome = Outcome.BlockDrain := by
    decide
  exact ⟨hpre, hblock,
    claim_C2_block_returns_only_pending wOptsBlock none none 0 wLegacyOk
      [] [PodInfo.mk cPodB] (PodInfo.mk cPodA) hpre hblock⟩

/-- Witness for C3 (amended): the chain classifies `cPodA` as movable,
the legacy function fails, and the returned lists carry the legacy
lists with the chain-classified pods appended. -/
theorem claim_C3_witness :
    noChainBlock (effectiveRules cOptsDrainOk none) cNodeAB.Pods ∧
    cLegacyErr
      (chainUndefined (effectiveRules cOptsDrainOk none) cNodeAB.Pods)
      (trackerPdbs none) cOptsDrainOk.SkipNodesWithSystemPods
      cOptsDrainOk.SkipNodesWithLocalStorage
      cOptsDrainOk.SkipNodesWithCustomControllerPods none
      (int32ofInt cOptsDrainOk.MinReplicaCount) 0
      = ([], [], some ⟨cPodB, BlockingPodReason.NotReplicated⟩,
        some "pod is unreplicated") ∧
    GetPodsToMove cNodeAB cOptsDrainOk none none 0 cLegacyErr =
      ⟨[] ++ chainDrainPods (effectiveRules cOptsDrainOk none) cNodeAB.Pods,
        [] ++ chainDrainDS (effectiveRules cOptsDrainOk none) cNodeAB.Pods,
        some ⟨cPodB, BlockingPodReason.NotReplicated⟩,
        some "pod is unreplicated"⟩ := by
  have hnb : noChainBlock (effectiveRules cOptsDrainOk none) cNodeAB.Pods
      := by
    simp only [noChainBlock]
    decide
  exact ⟨hnb, rfl,
    claim_C3_legacy_error_merges cNodeAB cOptsDrainOk none none 0 cLegacyErr
      [] [] (some ⟨cPodB, BlockingPodReason.NotReplicated⟩)
      "pod is unreplicated" hnb rfl⟩

/-- Witness for C5 (amended): a snapshot holding one exhausted covering
budget blocks `cPod` with `NotEnoughPdb` naming it. -/
theorem claim_C5_witness :
    wTrackerExhausted.GetPdbs = [] ++ cExhaustedPdb :: [] ∧
    (∀ b' ∈ ([] : List PodDisruptionBudget),
      b'.Selector.malformed = false) ∧
    covers cExhaustedPdb cPod = true ∧
    cExhaustedPdb.DisruptionsAllowed < 1 ∧
    (PdbRule.mk (some wTrackerExhausted)).Drainable cPod =
      NewBlockedStatus BlockingPodReason.NotEnoughPdb
        ("not enough pod disruption budget to move "
          ++ cPod.Namespace ++ "/" ++ cPod.Name) := by
  refine ⟨rfl, by simp, by decide, by decide, ?_⟩
  exact claim_C5_not_enough_pdb cPod wTrackerExhausted [] [] cExhaustedPdb
    rfl (by simp) (by decide) (by decide)

/-- Witness for C6 (amended): a snapshot whose first budget is
malformed blocks `cPod` with `UnexpectedError`, although the later
budget is a plain covering budget. -/
theorem claim_C6_witness :
    cTrackerMalformedFirst.GetPdbs
      = [] ++ cMalformedPdb :: [cExhaustedPdb] ∧
    cMalformedPdb.Selector.malformed = true ∧
    (∀ b' ∈ ([] : List PodDisruptionBudget),
      ¬(covers b' cPod = true ∧ b'.DisruptionsAllowed < 1)) ∧
    (PdbRule.mk (some cTrackerMalformedFirst)).Drainable cPod =
      NewBlockedStatus BlockingPodReason.UnexpectedError
        "failed to convert label selector" := by
  refine ⟨rfl, by decide, by simp, ?_⟩
  exact claim_C6_malformed_selector cPod cTrackerMalformedFirst []
    [cExhaustedPdb] cMalformedPdb rfl (by decide) (by simp)

/-- Witness for C7 (amended): a snapshot holding one healthy covering
budget never blocks `cPod`. -/
theorem claim_C7_witness :
    (∀ b ∈ pdbsOf (PdbRule.mk (some wTrackerHealthy)),
      b.Selector.malformed = false) ∧
    (∀ b ∈ pdbsOf (PdbRule.mk (some wTrackerHealthy)),
      covers b cPod = true → 1 ≤ b.DisruptionsAllowed) ∧
    ((PdbRule.mk (some wTrackerHealthy)).Drainable cPod).Outcome
      ≠ Outcome.BlockDrain := by
  refine ⟨by decide, by decide, ?_⟩
  exact claim_C7_no_block cPod (PdbRule.mk (some wTrackerHealthy))
    (by decide) (by decide)

/-- Witness for C9: with the always-blocking rule chain, the first pod
is the blocking pod, its status's cause is the error, and the result
does not depend on the pods after it. -/
theorem claim_C9_witness :
    noChainBlock (effectiveRules wOptsBlock none) [] ∧
    (drainabilityStatus (PodInfo.mk cPodA).Pod
      (effectiveRules wOptsBlock none)).Outcome = Outcome.BlockDrain ∧
    ((GetPodsToMove ⟨[] ++ PodInfo.mk cPodA :: [PodInfo.mk cPodB]⟩
        wOptsBlock none none 0 wLegacyOk).blockingPod =
      some ⟨(PodInfo.mk cPodA).Pod,
        (drainabilityStatus (PodInfo.mk cPodA).Pod
          (effectiveRules wOptsBlock none)).BlockingReason⟩ ∧
     (GetPodsToMove ⟨[] ++ PodInfo.mk cPodA :: [PodInfo.mk cPodB]⟩
        wOptsBlock none none 0 wLegacyOk).err =
      (drainabilityStatus (PodInfo.mk cPodA).Pod
        (effectiveRules wOptsBlock none)).Error ∧
     ∀ post' : List PodInfo,
       GetPodsToMove ⟨[] ++ PodInfo.mk cPodA :: post'⟩
         wOptsBlock none none 0 wLegacyOk =
       GetPodsToMove ⟨[] ++ PodInfo.mk cPodA :: [PodInfo.mk cPodB]⟩
         wOptsBlock none none 0 wLegacyOk) := by
  have hpre : noChainBlock (effectiveRules wOptsBlock none) [] := by
    intro q hq
    exact absurd hq (List.not_mem_nil q)
  have hblock : (drainabilityStatus (PodInfo.mk cPodA).Pod
      (effectiveRules wOptsBlock none)).Outcome = Outcome.BlockDrain := by
    decide
  exact ⟨hpre, hblock,
    claim_C9_block_short_circuits wOptsBlock none none 0 wLegacyOk
      [] [PodInfo.mk cPodB] (PodInfo.mk cPodA) hpre hblock⟩

/-- Witness for C10: no rule blocks, the legacy function succeeds, and
the merged lists come back with nil blockingPod and err. -/
theorem claim_C10_witness :
    noChainBlock (effectiveRules cOptsDrainOk none) cNodeAB.Pods ∧
    wLegacyOk
      (chainUndefined (effectiveRules cOptsDrainOk none) cNodeAB.Pods)
      (trackerPdbs none) cOptsDrainOk.SkipNodesWithSystemPods
      cOptsDrainOk.SkipNodesWithLocalStorage
      cOptsDrainOk.SkipNodesWithCustomControllerPods none
      (int32ofInt cOptsDrainOk.MinReplicaCount) 0
      = (chainUndefined (effectiveRules cOptsDrainOk none) cNodeAB.Pods,
        [], none, none) ∧
    GetPodsToMove cNodeAB cOptsDrainOk none none 0 wLegacyOk =
      ⟨chainUndefined (effectiveRules cOptsDrainOk none) cNodeAB.Pods
          ++ chainDrainPods (effectiveRules cOptsDrainOk none) cNodeAB.Pods,
        [] ++ chainDrainDS (effectiveRules cOptsDrainOk none) cNodeAB.Pods,
        none, none⟩ := by
  have hnb : noChainBlock (effectiveRules cOptsDrainOk none) cNodeAB.Pods
      := by
    simp only [noChainBlock]
    decide
  exact ⟨hnb, rfl,
    claim_C10_merge_order cNodeAB cOptsDrainOk none none 0 wLegacyOk
      (chainUndefined (effectiveRules cOptsDrainOk none) cNodeAB.Pods)
      [] none hnb rfl⟩

end Autoscaler
